/-
Verification of the vsfs file system against its natural-language
specification.

The sources embedded here are `src/vsfs.c` (operations engine) and
`src/mkfs.c` (formatter).  The header `vsfs.h` and the implementations
`bitmap.c`, `fs_ctx.c`, `map.c` are not part of the provided sources;
the on-disk constants and record layouts are taken from the byte-exact
layout of spec §6, and the bitmap and mount-context behaviour from
spec §4.1 / §4.3 (each such definition is marked "Modelled from the
spec").

The disk image is embedded as a flat byte map `Nat → Nat` (address to
byte value), exactly as the C code sees it through `mmap`: the
superblock, bitmaps, inode table and data blocks all live in the same
byte array, and a write through an unassigned (zero) block pointer
lands on block 0, as it does in the C code.  Multi-byte fields are
little-endian, matching spec §6.
-/
import Mathlib

set_option maxRecDepth 1000000
set_option maxHeartbeats 2000000

namespace Vsfs

/-- A disk image: byte address to byte value (values < 256 by construction). -/
abbrev Img := Nat → Nat

/-! ### On-disk constants

`BLOCK_SIZE`, the block numbers of the metadata blocks, `ROOT_INO` and
the record layouts are fixed by spec §3/§6.  `vsfs.h` is not among the
sources, so the remaining numeric constants are modelled from the spec:
`NUM_DIRECT = 6` and `NAME_MAX = 59` are forced by §6's requirement that
the 40+4·NUM_DIRECT-byte inode record and the 4+NAME_MAX+1-byte
directory entry are respectively a divisor of the block size and a
power of two (both come out at 64 bytes); `INO_MAX` is the largest
32-bit value (a sentinel distinguishable from every valid inode number,
with `num_inodes < INO_MAX`); `PATH_MAX`, `BLK_MIN`, `BLK_MAX` and the
value of `MAGIC` are not pinned down by the spec and are chosen here
(the claims never depend on their exact values, only on the comparisons
made against them). -/

def BLOCK_SIZE : Nat := 4096
def MAGIC : Nat := 0xC369A4C369A469C3
def ROOT_INO : Nat := 0
def INO_MAX : Nat := 4294967295
def NAME_MAX : Nat := 59
def PATH_MAX : Nat := 4096
def NUM_DIRECT : Nat := 6
def BLK_MIN : Nat := 4
def BLK_MAX : Nat := 32768

/-- Block number of the superblock (spec §3). -/
def SB_BLKNUM : Nat := 0
/-- Block number of the inode bitmap (spec §3). -/
def IMAP_BLKNUM : Nat := 1
/-- Block number of the data bitmap (spec §3). -/
def DMAP_BLKNUM : Nat := 2
/-- First block of the inode table (spec §3). -/
def ITBL_BLKNUM : Nat := 3

/-- Size of one inode record in bytes (spec §6: mode(4) nlink(4) size(8)
blocks(4) mtime_sec(8) mtime_nsec(8) direct[6](4 each) indirect(4)). -/
def INODE_SIZE : Nat := 64
/-- Size of one directory entry in bytes (spec §6: inode(4) name[60]). -/
def DENTRY_SIZE : Nat := 64

/-- Flat byte address of the inode table (block 3). -/
def itblBase : Nat := ITBL_BLKNUM * BLOCK_SIZE
/-- Flat byte address of the inode bitmap (block 1). -/
def imapBase : Nat := IMAP_BLKNUM * BLOCK_SIZE
/-- Flat byte address of the data bitmap (block 2). -/
def dmapBase : Nat := DMAP_BLKNUM * BLOCK_SIZE

/-- Flat byte address of inode record `ino` in the inode table. -/
def inoAddr (ino : Nat) : Nat := itblBase + INODE_SIZE * ino

/-! ### Byte-level primitives -/

/-- Read one byte (C reads `uint8_t`; the `% 256` keeps arbitrary
functions honest — images built in this file always store values
below 256). -/
def byte (img : Img) (a : Nat) : Nat := img a % 256

/-- Little-endian read of `n` bytes at address `a`. -/
def readN (img : Img) (a : Nat) : Nat → Nat
  | 0 => 0
  | n + 1 => byte img a + 256 * readN img (a + 1) n

/-- Range write: bytes `a ≤ x < a + n` become `f (x - a) % 256`.
This is the semantics of every store, `memset` and `memcpy` in the C
code (all of which write a contiguous flat byte range). -/
def writeF (img : Img) (a n : Nat) (f : Nat → Nat) : Img :=
  fun x => if a ≤ x ∧ x < a + n then f (x - a) % 256 else img x

/-- Little-endian write of the `n`-byte value `v` at address `a`. -/
def writeN (img : Img) (a n v : Nat) : Img :=
  writeF img a n (fun o => v / 256 ^ o)

/-- `memset(dst, c, n)` on the image. -/
def memsetI (img : Img) (a n c : Nat) : Img :=
  writeF img a n (fun _ => c)

/-- `memcpy(img + a, buf, n)`: copy `n` bytes of the caller buffer. -/
def memcpyIn (img : Img) (a : Nat) (buf : Nat → Nat) (n : Nat) : Img :=
  writeF img a n buf

/-- 32-bit wrapping subtraction (C unsigned arithmetic on `uint32_t`),
for operands below `2^32`. -/
def wsub (a b : Nat) : Nat := (a + 4294967296 - b) % 4294967296

/-- `div_round_up` from `util.h`: `(x + y - 1) / y` computed in
`uint32_t`, so `x` is first truncated to 32 bits and the sum wraps. -/
def div_round_up (x y : Nat) : Nat := (x % 4294967296 + (y - 1)) % 4294967296 / y

/-! ### Bitmap primitives

`bitmap.c` is not among the sources; these are modelled from the spec
(§4.1) and the contracts in `bitmap.h`: bit `i` of a bitmap at byte
base `b` is bit `i % 8` of byte `b + i / 8` (spec §6: bits are LSB-first
little-endian); `alloc` returns the smallest clear index below `nbits`
and sets it; `free`/`set` clear or set one bit. -/

/-- Test bit `i` of the bitmap at byte address `base`. -/
def imgBit (img : Img) (base i : Nat) : Bool :=
  Nat.testBit (byte img (base + i / 8)) (i % 8)

/-- Modelled from the spec: `bitmap_set(b, nbits, i, val)` — set bit `i`
to `val` (read-modify-write of one byte). -/
def bitmapSet (img : Img) (base i : Nat) (v : Bool) : Img :=
  writeN img (base + i / 8) 1
    (cond v (byte img (base + i / 8) ||| 2 ^ (i % 8))
            (byte img (base + i / 8) - cond (Nat.testBit (byte img (base + i / 8)) (i % 8)) (2 ^ (i % 8)) 0))

/-- Modelled from the spec: `bitmap_free(b, nbits, i)` — clear bit `i`
(§4.1: "free(i): precondition bit i = 1; clear it"). -/
def bitmapFree (img : Img) (base i : Nat) : Img :=
  bitmapSet img base i false

/-- Search for the first clear bit at index `≥ i`, below `nbits`
(`fuel` bounds the recursion; callers pass `fuel = nbits`). -/
def findClear (img : Img) (base nbits : Nat) : Nat → Nat → Option Nat
  | 0, _ => none
  | fuel + 1, i =>
    if nbits ≤ i then none
    else if imgBit img base i then findClear img base nbits fuel (i + 1)
    else some i

/-- Modelled from the spec: the index returned by `bitmap_alloc(b, nbits)` —
the smallest `i < nbits` with bit `i` clear (§4.1). -/
def bitmapAllocIdx (img : Img) (base nbits : Nat) : Option Nat :=
  findClear img base nbits nbits 0

/-- Modelled from the spec: `bitmap_alloc` — find the first clear bit
below `nbits` and set it (§4.1: "return the smallest i<N with
bit i = 0; set it"), or fail FULL. -/
def bitmapAlloc (img : Img) (base nbits : Nat) : Option (Nat × Img) :=
  match bitmapAllocIdx img base nbits with
  | none => none
  | some i => some (i, bitmapSet img base i true)

/-- Modelled from the spec: the byte at offset `o` of a bitmap block
after `memset 0xff` followed by `bitmap_init N` (clear bits `0..N-1`,
set all remaining bits; §4.1/§4.2). -/
def bitmapInitByte (N o : Nat) : Nat := 255 - 255 % 2 ^ min 8 (N - 8 * o)

/-! ### Inode field accessors (layout from spec §6) -/

def iMode (img : Img) (ino : Nat) : Nat := readN img (inoAddr ino) 4
def iNlink (img : Img) (ino : Nat) : Nat := readN img (inoAddr ino + 4) 4
def iSize (img : Img) (ino : Nat) : Nat := readN img (inoAddr ino + 8) 8
def iBlocks (img : Img) (ino : Nat) : Nat := readN img (inoAddr ino + 16) 4
def iMtimeSec (img : Img) (ino : Nat) : Nat := readN img (inoAddr ino + 20) 8
def iMtimeNsec (img : Img) (ino : Nat) : Nat := readN img (inoAddr ino + 28) 8
def iDirect (img : Img) (ino k : Nat) : Nat := readN img (inoAddr ino + 36 + 4 * k) 4
def iIndirect (img : Img) (ino : Nat) : Nat := readN img (inoAddr ino + 60) 4

/-! ### Superblock field accessors (layout from spec §6) -/

def sbMagic (img : Img) : Nat := readN img 0 8
def sbSize (img : Img) : Nat := readN img 8 8
def sbNumInodes (img : Img) : Nat := readN img 16 4
def sbFreeInodes (img : Img) : Nat := readN img 20 4
def sbNumBlocks (img : Img) : Nat := readN img 24 4
def sbFreeBlocks (img : Img) : Nat := readN img 28 4
def sbDataRegion (img : Img) : Nat := readN img 32 4

/-- Store the inode mtime (`i_mtime = now`, a `timespec`). -/
def setMtime (img : Img) (ino ts tn : Nat) : Img :=
  writeN (writeN img (inoAddr ino + 20) 8 ts) (inoAddr ino + 28) 8 tn

/-! ### Addressing helper and path resolution (`vsfs.c`) -/

/-- `get_address(ino, offset)` from `vsfs.c:74`: flat byte address of
file offset `offset`.  `block_num = offset / BLOCK_SIZE`; below
`NUM_DIRECT` the block number comes from `i_direct[block_num]`,
otherwise from entry `block_num - NUM_DIRECT` of the block pointed to
by `i_indirect`; the result is that block's base plus
`offset % BLOCK_SIZE`. -/
def getAddress (img : Img) (ino off : Nat) : Nat :=
  let bn := off / BLOCK_SIZE
  let blk :=
    if NUM_DIRECT ≤ bn then
      readN img (iIndirect img ino * BLOCK_SIZE + 4 * (bn - NUM_DIRECT)) 4
    else iDirect img ino bn
  blk * BLOCK_SIZE + off % BLOCK_SIZE

/-- `get_dir_entry(&itable[0], i)` from `vsfs.c:90`: flat address of
root-directory entry `i`, addressed through the root inode. -/
def dirEntryAddr (img : Img) (i : Nat) : Nat :=
  getAddress img ROOT_INO (i * DENTRY_SIZE)

/-- Read a NUL-terminated byte string at address `a` (C `strcmp` view of
a name buffer); `fuel` bounds the scan. -/
def cstr (img : Img) (a : Nat) : Nat → List Nat
  | 0 => []
  | fuel + 1 => if byte img a = 0 then [] else byte img a :: cstr img (a + 1) fuel

/-- `path_lookup` from `vsfs.c:105`.  Paths are byte lists (no NUL).
Returns `none` both for a non-absolute path and for a missing name; the
engine's callers that ignore the error code then use `VSFS_INO_MAX` as
the inode number, which `.getD INO_MAX` reproduces. -/
def pathLookup (img : Img) (path : List Nat) : Option Nat :=
  if path.head? ≠ some 47 then none
  else if path = [47] then some ROOT_INO
  else
    (List.range (BLOCK_SIZE / DENTRY_SIZE)).findSome? fun i =>
      let a := dirEntryAddr img i
      if readN img a 4 ≠ INO_MAX ∧ cstr img (a + 4) BLOCK_SIZE = path.drop 1 then
        some (readN img a 4)
      else none

/-- The leaf component `strrchr(path, '/') + 1` used by `vsfs_create`. -/
def leafOf (path : List Nat) : List Nat :=
  (path.reverse.takeWhile (fun b => b ≠ 47)).reverse

/-! ### The operations engine (`vsfs.c`) -/

/-- Result of `vsfs_getattr`: the fields the engine populates in
`struct stat` (the engine zeroes the struct first, so error returns
carry the zero record). -/
structure Stat where
  mode : Nat
  nlink : Nat
  size : Nat
  blocks : Nat
  mtimeSec : Nat
  mtimeNsec : Nat
  deriving Repr, DecidableEq

def Stat.zero : Stat := ⟨0, 0, 0, 0, 0, 0⟩

/-- `vsfs_getattr` from `vsfs.c:193`: NAMETOOLONG on long paths, ENOENT
when the path does not resolve, otherwise mode/nlink/size/mtime from
the inode and `div_round_up(size, 512)` 512-byte sectors. -/
def vsfs_getattr (img : Img) (path : List Nat) : Int × Stat :=
  if PATH_MAX ≤ path.length ∨ NAME_MAX + 1 ≤ path.length then (-36, Stat.zero)
  else
    match pathLookup img path with
    | none => (-2, Stat.zero)
    | some ino =>
      (0, ⟨iMode img ino, iNlink img ino, iSize img ino,
           div_round_up (iSize img ino) 512,
           iMtimeSec img ino, iMtimeNsec img ino⟩)

/-- The directory-slot scan of `vsfs_create` (`vsfs.c:329`): find the
first root-directory entry whose inode is `INO_MAX`, store the new
inode number and `strcpy` the leaf name there (the bytes after the
terminating NUL are left untouched), stamp the root mtime, and return
0; with no free slot return `-ENOSPC` (without any rollback). -/
def createScan (img : Img) (newIno : Nat) (leaf : List Nat) (ts tn : Nat) : Int × Img :=
  match (List.range (BLOCK_SIZE / DENTRY_SIZE)).find? (fun i => readN img (dirEntryAddr img i) 4 = INO_MAX) with
  | some i =>
    let a := dirEntryAddr img i
    let img := writeN img a 4 newIno
    let img := writeF img (a + 4) (leaf.length + 1) (fun o => leaf.getD o 0)
    (0, setMtime img ROOT_INO ts tn)
  | none => (-28, img)

/-- `vsfs_create` from `vsfs.c:302`. -/
def vsfs_create (img : Img) (path : List Nat) (mode ts tn : Nat) : Int × Img :=
  if sbFreeInodes img = 0 then (-28, img)
  else
    match bitmapAlloc img imapBase (sbNumInodes img) with
    | none => (-28, img)
    | some (newIno, img) =>
      let img := bitmapSet img imapBase newIno true
      let img := memsetI img (inoAddr newIno) INODE_SIZE 0
      let img := writeN img 20 4 (wsub (sbFreeInodes img) 1)
      let img := writeN img (inoAddr newIno + 8) 8 0
      let img := writeN img (inoAddr newIno + 16) 4 0
      let img := writeN img (inoAddr newIno) 4 mode
      let img := writeN img (inoAddr newIno + 4) 4 1
      let img := setMtime img newIno ts tn
      createScan img newIno (leafOf path) ts tn

/-- The block-freeing loop of `vsfs_unlink` (`vsfs.c:375`): for
`i = 0 .. i_blocks-1` free data-bitmap bit `i_direct[i]` and increment
`free_blocks` — note `i_direct[i]` is read at flat offset `36 + 4*i` of
the inode record, which for `i ≥ NUM_DIRECT` runs past the direct array
into the indirect field and the following records, exactly as the C
array overrun does. -/
def unlinkFreeBlocks (img : Img) (ino : Nat) : Nat → Img
  | 0 => img
  | k + 1 =>
    let img := unlinkFreeBlocks img ino k
    let img := bitmapFree img dmapBase (readN img (inoAddr ino + 36 + 4 * k) 4)
    writeN img 28 4 ((sbFreeBlocks img + 1) % 4294967296)

/-- The directory-slot scan of `vsfs_unlink` (`vsfs.c:381`): find the
used entry whose name matches, `memset(dir_entry, 0, strlen(name))`
(zeroing the first `strlen(name)` bytes of the entry, i.e. starting at
its inode field — not the name), then set the entry's inode to
`INO_MAX` and stamp the root mtime. -/
def unlinkScan (img : Img) (path : List Nat) (ts tn : Nat) : Img :=
  match (List.range (BLOCK_SIZE / DENTRY_SIZE)).find? (fun i =>
      readN img (dirEntryAddr img i) 4 ≠ INO_MAX ∧
      cstr img (dirEntryAddr img i + 4) BLOCK_SIZE = path.drop 1) with
  | some i =>
    let a := dirEntryAddr img i
    let img := memsetI img a (cstr img (a + 4) BLOCK_SIZE).length 0
    let img := writeN img a 4 INO_MAX
    setMtime img ROOT_INO ts tn
  | none => img

/-- `vsfs_unlink` from `vsfs.c:355`. -/
def vsfs_unlink (img : Img) (path : List Nat) (ts tn : Nat) : Int × Img :=
  let ino := (pathLookup img path).getD INO_MAX
  let img := writeN img (inoAddr ino + 4) 4 (wsub (iNlink img ino) 1)
  let img :=
    if iNlink img ino = 0 then
      let img := bitmapFree img imapBase ino
      writeN img 20 4 ((sbFreeInodes img + 1) % 4294967296)
    else img
  let img := unlinkFreeBlocks img ino (iBlocks img ino)
  (0, unlinkScan img path ts tn)

/-- The allocation loop of `vsfs_truncate` (`vsfs.c:489`): `n` times,
allocate a data-bitmap bit (reading `num_blocks` afresh each pass), set
it, and decrement `free_blocks`; on FULL return `-ENOSPC` at once,
keeping the partial allocations.  The allocated block numbers are
discarded — the C code never records them in the inode. -/
def truncAllocLoop (img : Img) : Nat → Option Img
  | 0 => some img
  | k + 1 =>
    match truncAllocLoop img k with
    | none => none
    | some img =>
      match bitmapAlloc img dmapBase (sbNumBlocks img) with
      | none => none
      | some (b, img) =>
        let img := bitmapSet img dmapBase b true
        some (writeN img 28 4 (wsub (sbFreeBlocks img) 1))

/-- The freeing loop of `vsfs_truncate` (`vsfs.c:498`): `n` times free
data-bitmap bit `i_direct[NUM_DIRECT - 1 - i]` and increment
`free_blocks`. -/
def truncFreeLoop (img : Img) (ino : Nat) : Nat → Img
  | 0 => img
  | k + 1 =>
    let img := truncFreeLoop img ino k
    let img := bitmapFree img dmapBase (iDirect img ino (NUM_DIRECT - 1 - k))
    writeN img 28 4 ((sbFreeBlocks img + 1) % 4294967296)

/-- `vsfs_truncate` from `vsfs.c:463`. -/
def vsfs_truncate (img : Img) (path : List Nat) (size ts tn : Nat) : Int × Img :=
  let block_size := div_round_up size BLOCK_SIZE
  if NUM_DIRECT + BLOCK_SIZE / 4 < block_size then (-27, img)
  else
    let ino := (pathLookup img path).getD INO_MAX
    if size = iSize img ino then (0, img)
    else
      let img :=
        if iSize img ino < size then
          memsetI img (getAddress img ino (iSize img ino)) (size - iSize img ino) 0
        else img
      if iBlocks img ino < block_size then
        let n := min (block_size - iBlocks img ino) NUM_DIRECT
        match truncAllocLoop img n with
        | none => (-28, img)
        | some img =>
          let img := writeN img (inoAddr ino + 8) 8 (size % 18446744073709551616)
          let img := writeN img (inoAddr ino + 16) 4 block_size
          (0, setMtime img ino ts tn)
      else
        let n := min (iBlocks img ino - block_size) NUM_DIRECT
        let img := truncFreeLoop img ino n
        let img := writeN img (inoAddr ino + 8) 8 (size % 18446744073709551616)
        let img := writeN img (inoAddr ino + 16) 4 block_size
        (0, setMtime img ino ts tn)

/-- `vsfs_read` from `vsfs.c:536`.  Returns the byte count and the bytes
delivered to the caller's buffer as a function of buffer index (on the
`offset` beyond EOF path nothing is copied and the result function is
the zero function; only the first `ret` entries of the function are
meaningful, like the C buffer). -/
def vsfs_read (img : Img) (path : List Nat) (size off : Nat) : Int × (Nat → Nat) :=
  let ino := (pathLookup img path).getD INO_MAX
  if iSize img ino < off then (0, fun _ => 0)
  else
    let sz := if iSize img ino < off + size then iSize img ino - off else size
    (sz, fun i => byte img (getAddress img ino off + i))

/-- `vsfs_write` from `vsfs.c:584`.  `-EFBIG` when the offset is past
EOF; delegate extension to `vsfs_truncate`, otherwise bump `i_size` and
`i_blocks` directly; then copy the buffer through the addressing helper
and stamp the mtime. -/
def vsfs_write (img : Img) (path : List Nat) (buf : Nat → Nat) (size off ts tn : Nat) : Int × Img :=
  let ino := (pathLookup img path).getD INO_MAX
  if iSize img ino < off then (-27, img)
  else
    let step : Int × Img :=
      if iSize img ino < off + size then vsfs_truncate img path (off + size) ts tn
      else
        let img1 := writeN img (inoAddr ino + 8) 8 ((iSize img ino + size) % 18446744073709551616)
        (0, writeN img1 (inoAddr ino + 16) 4 ((iBlocks img ino + div_round_up size BLOCK_SIZE) % 4294967296))
    if step.1 < 0 then step
    else
      let img := step.2
      let img := memcpyIn img (getAddress img ino off) buf size
      (size, setMtime img ino ts tn)

/-! ### The formatter (`mkfs.c`) -/

/-- `vsfs_is_present` from `mkfs.c:92`: the image already carries a
vsfs superblock iff its magic field equals `MAGIC`. -/
def vsfs_is_present (img : Img) : Bool := sbMagic img = MAGIC

/-- Modelled from the spec: `fs_ctx_init` (`fs_ctx.c` is not among the
sources).  Spec §4.3: building the mount context "fails when the
superblock's magic is not `MAGIC` or its recorded size disagrees with
the mapped size". -/
def fs_ctx_init (img : Img) (size : Nat) : Bool :=
  sbMagic img = MAGIC ∧ sbSize img = size

/-- The formatter's loop marking the inode-table blocks allocated
(`mkfs.c:168`): set data-bitmap bits `3 .. 3+T-1`. -/
def markItblBlocks (img : Img) (nblks : Nat) : Nat → Img
  | 0 => img
  | k + 1 => bitmapSet (markItblBlocks img nblks k) dmapBase (DMAP_BLKNUM + 1 + k) true

/-- The formatter's loop initializing directory entries `2..63` of the
root directory block to unused (`mkfs.c:205`): only the inode field is
written (`INO_MAX`); the name bytes are left as they were. -/
def initSlots (img : Img) (B : Nat) : Nat → Img
  | 0 => img
  | k + 1 => writeN (initSlots img B k) (B + DENTRY_SIZE * (2 + k)) 4 INO_MAX

/-- `mkfs` steps 2-4 of `mkfs.c:144-171`: initialize both bitmap blocks
(`memset 0xff` + `bitmap_init`), mark the superblock, bitmap and
inode-table blocks allocated in the data bitmap, and mark the root
inode allocated in the inode bitmap. -/
def mkfsBitmaps (img : Img) (numInodes nblks T : Nat) : Img :=
  let img := writeF img imapBase BLOCK_SIZE (fun o => bitmapInitByte numInodes o)
  let img := writeF img dmapBase BLOCK_SIZE (fun o => bitmapInitByte nblks o)
  let img := bitmapSet img dmapBase SB_BLKNUM true
  let img := bitmapSet img dmapBase IMAP_BLKNUM true
  let img := bitmapSet img dmapBase DMAP_BLKNUM true
  let img := markItblBlocks img nblks T
  bitmapSet img imapBase ROOT_INO true

/-- `mkfs` root-inode field initialization (`mkfs.c:177-185`): mtime
from the clock, then mode = directory|0777, link count 2, size
`BLOCK_SIZE`, block count 1. -/
def mkfsRootFields (img : Img) (ts tn : Nat) : Img :=
  let img := setMtime img ROOT_INO ts tn
  let img := writeN img (inoAddr ROOT_INO) 4 16895
  let img := writeN img (inoAddr ROOT_INO + 4) 4 2
  let img := writeN img (inoAddr ROOT_INO + 8) 8 BLOCK_SIZE
  writeN img (inoAddr ROOT_INO + 16) 4 1

/-- `mkfs` root-directory block initialization (`mkfs.c:196-205`) at
flat base `B`: entries `.` and `..` pointing at `ROOT_INO` (strncpy
NUL-pads the 60-byte name field), then all remaining entries' inode
fields set to `INO_MAX`. -/
def mkfsDir (img : Img) (B : Nat) : Img :=
  let img := writeN img B 4 ROOT_INO
  let img := writeF img (B + 4) (NAME_MAX + 1) (fun o => [46].getD o 0)
  let img := writeN img (B + DENTRY_SIZE) 4 ROOT_INO
  let img := writeF img (B + DENTRY_SIZE + 4) (NAME_MAX + 1) (fun o => [46, 46].getD o 0)
  initSlots img B (BLOCK_SIZE / DENTRY_SIZE - 2)

/-- `mkfs` superblock initialization (`mkfs.c:211-220`), written last:
magic, size, inode and block counts, free counters, data region. -/
def mkfsSb (img : Img) (size numInodes nblks T : Nat) : Img :=
  let img := writeN img 0 8 MAGIC
  let img := writeN img 8 8 (size % 18446744073709551616)
  let img := writeN img 16 4 (numInodes % 4294967296)
  let img := writeN img 20 4 ((numInodes - 1) % 4294967296)
  let img := writeN img 24 4 (nblks % 4294967296)
  let img := writeN img 28 4 (wsub (wsub (wsub (nblks % 4294967296) DMAP_BLKNUM) T) 2)
  writeN img 32 4 ((ITBL_BLKNUM + T) % 4294967296)

/-- `mkfs` from `mkfs.c:118`, in the C statement order.  `clockOk`
models whether `clock_gettime(CLOCK_REALTIME, ...)` succeeds (the one
fallible external call); on failure the formatter aborts via `goto out`
with the bitmap initialization already applied and the superblock — in
particular the magic — never written.  Returns the C function's `bool`
together with the image state it leaves behind. -/
def mkfs (img : Img) (size numInodes : Nat) (clockOk : Bool) (ts tn : Nat) : Bool × Img :=
  let nblks := size / BLOCK_SIZE
  let T := div_round_up numInodes (BLOCK_SIZE / INODE_SIZE)
  if INO_MAX ≤ numInodes then (false, img)
  else if BLK_MAX < nblks ∨ nblks < BLK_MIN then (false, img)
  else
    let img := mkfsBitmaps img numInodes nblks T
    match clockOk with
    | false => (false, img)
    | true =>
      let img := mkfsRootFields img ts tn
      match bitmapAlloc img dmapBase nblks with
      | none => (false, img)
      | some (rootBlk, img) =>
        let img := writeN img (inoAddr ROOT_INO + 36) 4 rootBlk
        (true, mkfsSb (mkfsDir img (rootBlk * BLOCK_SIZE)) size numInodes nblks T)

/-! ### The structural invariants of spec §3/§8 as a decidable check -/

/-- Count the clear bits of the bitmap at `base` over indices
`lo ≤ i < hi`. -/
def countClear (img : Img) (base lo hi : Nat) : Nat :=
  ((List.range hi).filter (fun i => lo ≤ i && !imgBit img base i)).length

/-- Spec §3 invariants of one allocated inode: for directories the link
count is at least 2; `block_count = ceil(size / BLOCK_SIZE)`; each
non-zero direct pointer is inside the data region of the volume and
marked in the data bitmap; a file extending past `NUM_DIRECT` has a
valid indirect pointer. -/
def inodeOk (img : Img) (ino : Nat) : Bool :=
  let dr := sbDataRegion img
  let nb := sbNumBlocks img
  (decide (Nat.land (iMode img ino) 61440 ≠ 16384) || decide (2 ≤ iNlink img ino)) &&
  (iBlocks img ino == (iSize img ino + (BLOCK_SIZE - 1)) / BLOCK_SIZE) &&
  (List.range NUM_DIRECT).all (fun k =>
    iDirect img ino k == 0 ||
    (decide (dr ≤ iDirect img ino k) && decide (iDirect img ino k < nb) &&
     imgBit img dmapBase (iDirect img ino k))) &&
  (decide (iBlocks img ino ≤ NUM_DIRECT) ||
    (decide (dr ≤ iIndirect img ino) && decide (iIndirect img ino < nb) &&
     imgBit img dmapBase (iIndirect img ino)))

/-- Directory entry `i` of the root directory: its inode field. -/
def dentryIno (img : Img) (i : Nat) : Nat := readN img (dirEntryAddr img i) 4
/-- Directory entry `i` of the root directory: its (NUL-terminated) name. -/
def dentryName (img : Img) (i : Nat) : List Nat := cstr img (dirEntryAddr img i + 4) BLOCK_SIZE

/-- Spec §3 directory-block invariants: used slots (inode ≠ `INO_MAX`)
have non-empty pairwise distinct names, and `.` and `..` are present
and point at the root inode. -/
def dentriesOk (img : Img) : Bool :=
  let n := BLOCK_SIZE / DENTRY_SIZE
  (List.range n).all (fun i =>
    dentryIno img i == INO_MAX ||
    (decide (dentryName img i ≠ []) &&
     (List.range n).all (fun j =>
       i == j || dentryIno img j == INO_MAX || decide (dentryName img i ≠ dentryName img j)))) &&
  (List.range n).any (fun i => dentryIno img i == ROOT_INO && dentryName img i == [46]) &&
  (List.range n).any (fun i => dentryIno img i == ROOT_INO && dentryName img i == [46, 46])

/-- The structural invariants of spec §3 (with the bit-count forms of
§8 for the two free counters), as one decidable check. -/
def invariants (img : Img) : Bool :=
  (sbMagic img == MAGIC) &&
  decide (sbFreeInodes img ≤ sbNumInodes img) &&
  decide (sbFreeBlocks img ≤ sbNumBlocks img - sbDataRegion img) &&
  decide (BLK_MIN ≤ sbNumBlocks img) && decide (sbNumBlocks img ≤ BLK_MAX) &&
  decide (sbNumInodes img < INO_MAX) &&
  (sbFreeInodes img == countClear img imapBase 0 (sbNumInodes img)) &&
  (sbFreeBlocks img == countClear img dmapBase (sbDataRegion img) (sbNumBlocks img)) &&
  (List.range (sbNumInodes img)).all (fun i => !imgBit img imapBase i || inodeOk img i) &&
  dentriesOk img

/-! ### Concrete image states

Hand-laid byte images used to evaluate the engine on concrete inputs.
Each is given region by region following the spec §6 layout; the
builders below turn a field list (width, little-endian value) into the
byte at a given offset. -/

/-- Byte `o` of a packed little-endian record given as (width, value)
fields. -/
def fieldsByte : List (Nat × Nat) → Nat → Nat
  | [], _ => 0
  | (w, v) :: r, o => if o < w then v / 256 ^ o % 256 else fieldsByte r (o - w)

/-- Byte `o` of an inode record (spec §6 layout). -/
def inoRec (mode nlink size blocks msec mnsec d0 d1 d2 d3 d4 d5 ind : Nat) : Nat → Nat :=
  fieldsByte [(4, mode), (4, nlink), (8, size), (4, blocks), (8, msec), (8, mnsec),
              (4, d0), (4, d1), (4, d2), (4, d3), (4, d4), (4, d5), (4, ind)]

/-- Byte `o` of a superblock record (spec §6 layout). -/
def sbRec (magic sz ni fi nb fb dr : Nat) : Nat → Nat :=
  fieldsByte [(8, magic), (8, sz), (4, ni), (4, fi), (4, nb), (4, fb), (4, dr)]

/-- Byte `o` of a directory entry: 4-byte inode then a NUL-padded name. -/
def dentryRec (ino : Nat) (name : List Nat) : Nat → Nat :=
  fun o => if o < 4 then ino / 256 ^ o % 256 else name.getD (o - 4) 0

/-- A 1 MiB (256-block) image with 32 inodes holding one regular file
`/a` (inode 1, size 0, no blocks), exactly as `mkfs -i 32` followed by
`create("/a")` lays it out: data region starts at block 4 (one
inode-table block), the root directory occupies block 4, inode bits 0
and 1 and data bits 0–4 are allocated, `free_inodes = 30`,
`free_blocks = 251`. -/
def cImgA : Img := fun a =>
  if a < 4096 then sbRec MAGIC 1048576 32 30 256 251 4 a
  else if a < 8192 then
    (let o := a - 4096; if o = 0 then 3 else if o < 4 then 0 else 255)
  else if a < 12288 then
    (let o := a - 8192; if o = 0 then 31 else if o < 32 then 0 else 255)
  else if a < 16384 then
    (let r := a - 12288
     if r < 64 then inoRec 16895 2 4096 1 1000 0 4 0 0 0 0 0 0 r
     else if r < 128 then inoRec 33188 1 0 0 1000 0 0 0 0 0 0 0 0 (r - 64)
     else 0)
  else if a < 20480 then
    (let s := (a - 16384) / 64
     let o := (a - 16384) % 64
     if s = 0 then dentryRec 0 [46] o
     else if s = 1 then dentryRec 0 [46, 46] o
     else if s = 2 then dentryRec 1 [97] o
     else dentryRec INO_MAX [] o)
  else 0

/-- Like `cImgA`, but `/a` has size 28 and block count 1 (its single
data block is bit 5 of the data bitmap; the inode's direct pointers are
all zero, as every file created by this engine has, since no code path
ever assigns them): `free_blocks = 250`. -/
def cImgS28 : Img := fun a =>
  if a < 4096 then sbRec MAGIC 1048576 32 30 256 250 4 a
  else if a < 8192 then
    (let o := a - 4096; if o = 0 then 3 else if o < 4 then 0 else 255)
  else if a < 12288 then
    (let o := a - 8192; if o = 0 then 63 else if o < 32 then 0 else 255)
  else if a < 16384 then
    (let r := a - 12288
     if r < 64 then inoRec 16895 2 4096 1 1000 0 4 0 0 0 0 0 0 r
     else if r < 128 then inoRec 33188 1 28 1 1000 0 0 0 0 0 0 0 0 (r - 64)
     else 0)
  else if a < 20480 then
    (let s := (a - 16384) / 64
     let o := (a - 16384) % 64
     if s = 0 then dentryRec 0 [46] o
     else if s = 1 then dentryRec 0 [46, 46] o
     else if s = 2 then dentryRec 1 [97] o
     else dentryRec INO_MAX [] o)
  else 0

/-- A 1 MiB image with 128 inodes (two inode-table blocks, data region
at block 5) whose root directory is completely full: entries `.` and
`..` plus 62 regular files (inodes 1–62, names the single bytes
97–158, all empty).  65 inodes and 250 data blocks are free, so only
the directory is exhausted. -/
def cImg128 : Img := fun a =>
  if a < 4096 then sbRec MAGIC 1048576 128 65 256 250 5 a
  else if a < 8192 then
    (let o := a - 4096
     if o < 7 then 255 else if o = 7 then 127 else if o < 16 then 0 else 255)
  else if a < 12288 then
    (let o := a - 8192; if o = 0 then 63 else if o < 32 then 0 else 255)
  else if a < 20480 then
    (let r := a - 12288
     if r < 64 then inoRec 16895 2 4096 1 1000 0 5 0 0 0 0 0 0 r
     else if r < 64 * 63 then inoRec 33188 1 0 0 1000 0 0 0 0 0 0 0 0 (r % 64)
     else 0)
  else if a < 24576 then
    (let s := (a - 20480) / 64
     let o := (a - 20480) % 64
     if s = 0 then dentryRec 0 [46] o
     else if s = 1 then dentryRec 0 [46, 46] o
     else dentryRec (s - 1) [95 + s] o)
  else 0

/-- The all-zero image (a freshly created, never formatted file). -/
def zeroImg : Img := fun _ => 0


end Vsfs

namespace Vsfs

/-! ### Generic byte-level lemmas -/

theorem byte_lt (img : Img) (a : Nat) : byte img a < 256 :=
  Nat.mod_lt _ (by omega)

theorem byte_writeF_in {img : Img} {a n x : Nat} {f : Nat → Nat}
    (h1 : a ≤ x) (h2 : x < a + n) : byte (writeF img a n f) x = f (x - a) % 256 := by
  simp only [byte, writeF, if_pos (And.intro h1 h2), Nat.mod_mod_of_dvd]
  exact Nat.mod_mod_of_dvd _ dvd_rfl

theorem byte_writeF_out {img : Img} {a n x : Nat} {f : Nat → Nat}
    (h : x < a ∨ a + n ≤ x) : byte (writeF img a n f) x = byte img x := by
  simp only [byte, writeF]
  rw [if_neg (by omega)]

theorem readN_ext {img1 img2 : Img} {a1 a2 : Nat} (n : Nat)
    (h : ∀ j, j < n → byte img1 (a1 + j) = byte img2 (a2 + j)) :
    readN img1 a1 n = readN img2 a2 n := by
  induction n generalizing a1 a2 with
  | zero => rfl
  | succ n ih =>
    simp only [readN]
    have h0 := h 0 (by omega)
    simp only [Nat.add_zero] at h0
    rw [h0, ih]
    intro j hj
    have := h (j + 1) (by omega)
    simpa [Nat.add_assoc, Nat.add_comm 1 j] using this

theorem readN_writeF_out {img : Img} {a n a' k : Nat} {f : Nat → Nat}
    (h : a' + k ≤ a ∨ a + n ≤ a') : readN (writeF img a n f) a' k = readN img a' k := by
  apply readN_ext
  intro j hj
  exact byte_writeF_out (by omega)

theorem readN_writeN_out {img : Img} {a n v a' k : Nat}
    (h : a' + k ≤ a ∨ a + n ≤ a') : readN (writeN img a n v) a' k = readN img a' k :=
  readN_writeF_out h

theorem byte_writeN_in {img : Img} {a n v x : Nat}
    (h1 : a ≤ x) (h2 : x < a + n) :
    byte (writeN img a n v) x = v / 256 ^ (x - a) % 256 :=
  byte_writeF_in h1 h2

theorem readN_writeN {img : Img} {a n v : Nat} :
    readN (writeN img a n v) a n = v % 256 ^ n := by
  induction n generalizing img a v with
  | zero => simp [readN, Nat.mod_one]
  | succ n ih =>
    simp only [readN]
    rw [byte_writeN_in (Nat.le_refl a) (by omega)]
    have h2 : readN (writeN img a (n + 1) v) (a + 1) n
        = readN (writeN img (a + 1) n (v / 256)) (a + 1) n := by
      apply readN_ext
      intro j hj
      rw [byte_writeN_in (by omega) (by omega), byte_writeN_in (by omega) (by omega)]
      have e1 : a + 1 + j - a = 1 + j := by omega
      have e2 : a + 1 + j - (a + 1) = j := by omega
      rw [e1, e2, pow_add, pow_one, ← Nat.div_div_eq_div_mul]
    rw [h2, ih]
    have e0 : a - a = 0 := by omega
    rw [e0, pow_zero, Nat.div_one, pow_succ', Nat.mod_mul]

theorem readN_writeN_self {img : Img} {a n v : Nat} (h : v < 256 ^ n) :
    readN (writeN img a n v) a n = v := by
  rw [readN_writeN, Nat.mod_eq_of_lt h]

/-! ### Bit-level lemmas -/

theorem imgBit_writeF_out {img : Img} {a n base j : Nat} {f : Nat → Nat}
    (h : base + j / 8 < a ∨ a + n ≤ base + j / 8) :
    imgBit (writeF img a n f) base j = imgBit img base j := by
  unfold imgBit
  rw [byte_writeF_out h]

theorem byte_writeN_out {img : Img} {a n v x : Nat}
    (h : x < a ∨ a + n ≤ x) : byte (writeN img a n v) x = byte img x :=
  byte_writeF_out h

theorem imgBit_bitmapSet_same {img : Img} {base i j : Nat} :
    imgBit (bitmapSet img base i true) base j = (decide (j = i) || imgBit img base j) := by
  by_cases hb : j / 8 = i / 8
  · simp only [bitmapSet, imgBit, Bool.cond_true]
    rw [byte_writeN_in (by omega) (by omega)]
    have e0 : base + j / 8 - (base + i / 8) = 0 := by omega
    rw [e0, pow_zero, Nat.div_one]
    have hlt : byte img (base + i / 8) ||| 2 ^ (i % 8) < 256 := by
      have h1 : byte img (base + i / 8) < 2 ^ 8 := byte_lt img _
      have h2 : 2 ^ (i % 8) < 2 ^ 8 :=
        Nat.pow_lt_pow_right (by omega) (by omega)
      exact Nat.or_lt_two_pow h1 h2
    rw [Nat.mod_eq_of_lt hlt, Nat.testBit_or, Nat.testBit_two_pow]
    have e1 : decide (i % 8 = j % 8) = decide (j = i) := by
      by_cases h : j = i
      · subst h
        simp
      · have hne : ¬i % 8 = j % 8 := by omega
        simp [h, hne]
    have hbb : base + j / 8 = base + i / 8 := by omega
    rw [e1, Bool.or_comm, hbb]
  · simp only [bitmapSet, imgBit, Bool.cond_true]
    rw [byte_writeN_out (by omega)]
    have : decide (j = i) = false := by
      simp only [decide_eq_false_iff_not]
      omega
    rw [this, Bool.false_or]

theorem imgBit_bitmapSet_out {img : Img} {base i base' j : Nat}
    (h : base' + j / 8 ≠ base + i / 8) {v : Bool} :
    imgBit (bitmapSet img base i v) base' j = imgBit img base' j := by
  simp only [bitmapSet, imgBit]
  rw [byte_writeN_out (by omega)]

theorem readN_bitmapSet_out {img : Img} {base i a k : Nat} {v : Bool}
    (h : a + k ≤ base + i / 8 ∨ base + i / 8 + 1 ≤ a) :
    readN (bitmapSet img base i v) a k = readN img a k := by
  simp only [bitmapSet]
  exact readN_writeN_out h

theorem byte_bitmapSet_out {img : Img} {base i x : Nat} {v : Bool}
    (h : x ≠ base + i / 8) :
    byte (bitmapSet img base i v) x = byte img x := by
  simp only [bitmapSet]
  exact byte_writeN_out (by omega)

theorem testBit_initByte {N o k : Nat} (hk : k < 8) :
    Nat.testBit (bitmapInitByte N o) k = decide (N ≤ 8 * o + k) := by
  unfold bitmapInitByte
  by_cases h8 : 8 ≤ N - 8 * o
  · rw [min_eq_left h8]
    norm_num
    omega
  · have hlt : N - 8 * o < 8 := by omega
    rw [min_eq_right (by omega)]
    have hc : N - 8 * o = 0 ∨ N - 8 * o = 1 ∨ N - 8 * o = 2 ∨ N - 8 * o = 3 ∨
        N - 8 * o = 4 ∨ N - 8 * o = 5 ∨ N - 8 * o = 6 ∨ N - 8 * o = 7 := by omega
    rcases hc with hc | hc | hc | hc | hc | hc | hc | hc <;>
      rw [hc] <;>
      rw [show decide (N ≤ 8 * o + k) = decide (N - 8 * o ≤ k) from
        decide_eq_decide.mpr (by omega)] <;>
      rw [hc] <;>
      interval_cases k <;> decide

theorem imgBit_initRegion {img : Img} {base N j : Nat} (hj : j < 32768) :
    imgBit (writeF img base BLOCK_SIZE (fun o => bitmapInitByte N o)) base j
      = decide (N ≤ j) := by
  unfold imgBit
  rw [byte_writeF_in (by omega) (by simp only [BLOCK_SIZE]; omega)]
  have e : base + j / 8 - base = j / 8 := by omega
  rw [e]
  have hle : bitmapInitByte N (j / 8) ≤ 255 := Nat.sub_le _ _
  rw [Nat.mod_eq_of_lt (by omega)]
  rw [testBit_initByte (Nat.mod_lt _ (by omega))]
  exact decide_eq_decide.mpr (by omega)

/-! ### Allocation-search and loop characterizations -/

theorem findClear_spec {img : Img} {base nbits m : Nat} (fuel i : Nat)
    (hm : m < nbits) (hbit : imgBit img base m = false)
    (hall : ∀ j, i ≤ j → j < m → imgBit img base j = true)
    (hi : i ≤ m) (hfuel : nbits ≤ fuel + i) :
    findClear img base nbits fuel i = some m := by
  induction fuel generalizing i with
  | zero => omega
  | succ fuel ih =>
    unfold findClear
    rw [if_neg (by omega)]
    by_cases h : i = m
    · subst h
      rw [hbit]
      rfl
    · rw [hall i (Nat.le_refl i) (by omega)]
      exact ih (i + 1) (fun j h1 h2 => hall j (by omega) h2) (by omega) (by omega)

theorem bitmapAlloc_spec {img : Img} {base nbits m : Nat}
    (hm : m < nbits) (hbit : imgBit img base m = false)
    (hall : ∀ j, j < m → imgBit img base j = true) :
    bitmapAlloc img base nbits = some (m, bitmapSet img base m true) := by
  unfold bitmapAlloc bitmapAllocIdx
  rw [findClear_spec nbits 0 hm hbit (fun j _ h2 => hall j h2) (by omega) (by omega)]

theorem imgBit_markItbl {img : Img} {nblks k j : Nat} :
    imgBit (markItblBlocks img nblks k) dmapBase j
      = (decide (3 ≤ j ∧ j < 3 + k) || imgBit img dmapBase j) := by
  induction k with
  | zero =>
    have : ¬(3 ≤ j ∧ j < 3 + 0) := by omega
    simp [markItblBlocks, this]
  | succ k ih =>
    show imgBit (bitmapSet (markItblBlocks img nblks k) dmapBase (DMAP_BLKNUM + 1 + k) true)
        dmapBase j = _
    rw [imgBit_bitmapSet_same, ih]
    by_cases h1 : j = DMAP_BLKNUM + 1 + k
    · have h2 : 3 ≤ j ∧ j < 3 + (k + 1) := by simp only [DMAP_BLKNUM] at h1; omega
      rw [decide_eq_true h1, decide_eq_true h2, Bool.true_or, Bool.true_or]
    · by_cases h2 : 3 ≤ j ∧ j < 3 + k
      · have h3 : 3 ≤ j ∧ j < 3 + (k + 1) := by omega
        rw [decide_eq_false h1, decide_eq_true h2, decide_eq_true h3,
          Bool.false_or, Bool.true_or]
      · have h3 : ¬(3 ≤ j ∧ j < 3 + (k + 1)) := by
          simp only [DMAP_BLKNUM] at h1; omega
        rw [decide_eq_false h1, decide_eq_false h2, decide_eq_false h3, Bool.false_or]

theorem readN_markItbl_out {img : Img} {nblks k a n : Nat}
    (h : a + n ≤ dmapBase) :
    readN (markItblBlocks img nblks k) a n = readN img a n := by
  induction k with
  | zero => rfl
  | succ k ih =>
    show readN (bitmapSet (markItblBlocks img nblks k) dmapBase (DMAP_BLKNUM + 1 + k) true)
        a n = _
    rw [readN_bitmapSet_out (by omega), ih]

theorem readN_markItbl_out_right {img : Img} {nblks k a n : Nat}
    (hk : 3 + k ≤ 32768) (h : dmapBase + BLOCK_SIZE ≤ a) :
    readN (markItblBlocks img nblks k) a n = readN img a n := by
  induction k with
  | zero => rfl
  | succ k ih =>
    show readN (bitmapSet (markItblBlocks img nblks k) dmapBase (DMAP_BLKNUM + 1 + k) true)
        a n = _
    rw [readN_bitmapSet_out, ih (by omega)]
    right
    have : (DMAP_BLKNUM + 1 + k) / 8 < BLOCK_SIZE := by
      simp only [DMAP_BLKNUM, BLOCK_SIZE]
      omega
    simp only [dmapBase, DMAP_BLKNUM, BLOCK_SIZE] at h ⊢
    omega

theorem readN_initSlots_out {img : Img} {B c a n : Nat}
    (hc : c ≤ 62)
    (h : a + n ≤ B + 2 * DENTRY_SIZE ∨ B + BLOCK_SIZE ≤ a) :
    readN (initSlots img B c) a n = readN img a n := by
  induction c with
  | zero => rfl
  | succ c ih =>
    show readN (writeN (initSlots img B c) (B + DENTRY_SIZE * (2 + c)) 4 INO_MAX) a n = _
    rw [readN_writeN_out, ih (by omega)]
    simp only [DENTRY_SIZE, BLOCK_SIZE] at h ⊢
    omega

theorem readN_initSlots_at {img : Img} {B c k : Nat}
    (hc : c ≤ 62) (hk : k < c) :
    readN (initSlots img B c) (B + DENTRY_SIZE * (2 + k)) 4 = INO_MAX := by
  induction c with
  | zero => omega
  | succ c ih =>
    show readN (writeN (initSlots img B c) (B + DENTRY_SIZE * (2 + c)) 4 INO_MAX)
        (B + DENTRY_SIZE * (2 + k)) 4 = INO_MAX
    by_cases h : k = c
    · subst h
      exact readN_writeN_self (by decide)
    · rw [readN_writeN_out, ih (by omega) (by omega)]
      simp only [DENTRY_SIZE]
      omega


/-! ### Universal claim theorems -/

/-- Claim C10: for every image state and every file that the path
resolves to, a write whose offset is strictly greater than the file's
current size returns `-EFBIG` and mutates nothing — the check at
`vsfs.c:600` runs before any state change, regardless of how much free
space is available. -/
theorem c10_write_past_eof_efbig (img : Img) (path : List Nat) (buf : Nat → Nat)
    (size off ts tn ino : Nat)
    (hl : pathLookup img path = some ino) (hoff : iSize img ino < off) :
    vsfs_write img path buf size off ts tn = (-27, img) := by
  unfold vsfs_write
  rw [hl]
  simp only [Option.getD_some]
  rw [if_pos hoff]

/-- Claim C10 witness: on the concrete image `cImgA`, writing 5 bytes at
offset 1 to the empty file `/a` yields `-EFBIG` and leaves the image
untouched. -/
theorem c10_write_past_eof_efbig_witness :
    pathLookup cImgA [47, 97] = some 1 ∧ iSize cImgA 1 < 1 ∧
    vsfs_write cImgA [47, 97] (fun _ => 0) 5 1 2000 0 = (-27, cImgA) :=
  ⟨by decide, by decide,
   c10_write_past_eof_efbig cImgA [47, 97] (fun _ => 0) 5 1 2000 0 1 (by decide) (by decide)⟩

/-- Claim C9: `vsfs_getattr` returns `-ENAMETOOLONG` exactly when the
path length reaches `PATH_MAX` or `NAME_MAX + 1`; otherwise it returns
`-ENOENT` exactly when the path does not resolve; and on success it
returns 0 with mode, link count, size and mtime taken from the resolved
inode and a 512-byte-sector count of `⌈size / 512⌉` (the code computes
this in 32-bit arithmetic, which agrees with the exact ceiling for any
size below `2^32 - 511` — every size the §3 invariants admit). -/
theorem c9_getattr_spec (img : Img) (path : List Nat) :
    ((vsfs_getattr img path).1 = -36 ↔
      PATH_MAX ≤ path.length ∨ NAME_MAX + 1 ≤ path.length) ∧
    (path.length < PATH_MAX → path.length < NAME_MAX + 1 →
      (((vsfs_getattr img path).1 = -2 ↔ pathLookup img path = none) ∧
       (∀ ino, pathLookup img path = some ino → iSize img ino + 511 < 4294967296 →
         vsfs_getattr img path =
           (0, ⟨iMode img ino, iNlink img ino, iSize img ino,
                (iSize img ino + 511) / 512,
                iMtimeSec img ino, iMtimeNsec img ino⟩)))) := by
  constructor
  · unfold vsfs_getattr
    by_cases h : PATH_MAX ≤ path.length ∨ NAME_MAX + 1 ≤ path.length
    · rw [if_pos h]
      simpa using h
    · rw [if_neg h]
      constructor
      · intro habs
        cases hl : pathLookup img path <;> rw [hl] at habs <;> simp at habs
      · intro habs
        exact absurd habs h
  · intro h1 h2
    have hno : ¬(PATH_MAX ≤ path.length ∨ NAME_MAX + 1 ≤ path.length) := by omega
    constructor
    · unfold vsfs_getattr
      rw [if_neg hno]
      cases hl : pathLookup img path
      · simp
      · simp
    · intro ino hl hbound
      unfold vsfs_getattr
      rw [if_neg hno, hl]
      have e1 : iSize img ino % 4294967296 = iSize img ino := by
        apply Nat.mod_eq_of_lt
        omega
      have e2 : (iSize img ino + 511) % 4294967296 = iSize img ino + 511 :=
        Nat.mod_eq_of_lt hbound
      have hb : div_round_up (iSize img ino) 512 = (iSize img ino + 511) / 512 := by
        unfold div_round_up
        rw [e1]
        norm_num
        rw [e2]
      simp only [hb]

/-- Claim C9 witness: `getattr("/a")` on `cImgA` resolves to inode 1 and
reports its fields. -/
theorem c9_getattr_spec_witness :
    ([47, 97] : List Nat).length < PATH_MAX ∧ ([47, 97] : List Nat).length < NAME_MAX + 1 ∧
    pathLookup cImgA [47, 97] = some 1 ∧ iSize cImgA 1 + 511 < 4294967296 ∧
    vsfs_getattr cImgA [47, 97] =
      (0, ⟨iMode cImgA 1, iNlink cImgA 1, iSize cImgA 1,
           (iSize cImgA 1 + 511) / 512, iMtimeSec cImgA 1, iMtimeNsec cImgA 1⟩) :=
  ⟨by decide, by decide, by decide, by decide,
   ((c9_getattr_spec cImgA [47, 97]).2 (by decide) (by decide)).2 1 (by decide) (by decide)⟩


theorem sbMagic_mkfsBitmaps {img : Img} {N nblks T : Nat} :
    sbMagic (mkfsBitmaps img N nblks T) = sbMagic img := by
  simp only [mkfsBitmaps, sbMagic]
  rw [readN_bitmapSet_out (by decide), readN_markItbl_out (by decide),
    readN_bitmapSet_out (by decide), readN_bitmapSet_out (by decide),
    readN_bitmapSet_out (by decide), readN_writeF_out (by decide),
    readN_writeF_out (by decide)]

theorem sbMagic_mkfsRootFields {img : Img} {ts tn : Nat} :
    sbMagic (mkfsRootFields img ts tn) = sbMagic img := by
  simp only [mkfsRootFields, setMtime, sbMagic]
  rw [readN_writeN_out (by decide), readN_writeN_out (by decide),
    readN_writeN_out (by decide), readN_writeN_out (by decide),
    readN_writeN_out (by decide), readN_writeN_out (by decide)]

/-- Claim C8: a failing run of the formatter — inode count not below
`INO_MAX`, block count outside `[BLK_MIN, BLK_MAX]`, clock failure, or
failure to allocate the root directory block — never writes the magic:
the superblock magic field is byte-for-byte what it was before the run,
and if the image did not carry the magic before, it still does not, so
`vsfs_is_present` is false and the mount-context construction
(spec §4.3) refuses the image. -/
theorem c8_mkfs_failure_keeps_magic (img : Img) (size N ts tn : Nat) (clockOk : Bool)
    (h : (mkfs img size N clockOk ts tn).1 = false) :
    sbMagic (mkfs img size N clockOk ts tn).2 = sbMagic img ∧
    (sbMagic img ≠ MAGIC →
      vsfs_is_present (mkfs img size N clockOk ts tn).2 = false ∧
      fs_ctx_init (mkfs img size N clockOk ts tn).2 size = false) := by
  have key : sbMagic (mkfs img size N clockOk ts tn).2 = sbMagic img := by
    unfold mkfs at h ⊢
    by_cases h1 : INO_MAX ≤ N
    · rw [if_pos h1]
    · rw [if_neg h1] at h ⊢
      by_cases h2 : BLK_MAX < size / BLOCK_SIZE ∨ size / BLOCK_SIZE < BLK_MIN
      · rw [if_pos h2]
      · rw [if_neg h2] at h ⊢
        cases clockOk with
        | false => exact sbMagic_mkfsBitmaps
        | true =>
          simp only [] at h ⊢
          cases hA : bitmapAlloc (mkfsRootFields
              (mkfsBitmaps img N (size / BLOCK_SIZE)
                (div_round_up N (BLOCK_SIZE / INODE_SIZE))) ts tn)
              dmapBase (size / BLOCK_SIZE) with
          | none =>
            show sbMagic (mkfsRootFields (mkfsBitmaps img N (size / BLOCK_SIZE)
                (div_round_up N (BLOCK_SIZE / INODE_SIZE))) ts tn) = sbMagic img
            rw [sbMagic_mkfsRootFields, sbMagic_mkfsBitmaps]
          | some p =>
            obtain ⟨b, im⟩ := p
            rw [hA] at h
            simp at h
  refine ⟨key, fun hmag => ⟨?_, ?_⟩⟩
  · simp [vsfs_is_present, key, hmag]
  · simp [fs_ctx_init, key, hmag]

/-- Claim C8 witness: formatting a zeroed 1 MiB image with
`INO_MAX` inodes fails; the magic field (zero) is unchanged and the
image still refuses to mount. -/
theorem c8_mkfs_failure_keeps_magic_witness :
    (mkfs zeroImg 1048576 4294967295 true 777 0).1 = false ∧
    sbMagic zeroImg ≠ MAGIC ∧
    sbMagic (mkfs zeroImg 1048576 4294967295 true 777 0).2 = sbMagic zeroImg ∧
    vsfs_is_present (mkfs zeroImg 1048576 4294967295 true 777 0).2 = false ∧
    fs_ctx_init (mkfs zeroImg 1048576 4294967295 true 777 0).2 1048576 = false := by
  have h1 : (mkfs zeroImg 1048576 4294967295 true 777 0).1 = false := by decide
  have h2 : sbMagic zeroImg ≠ MAGIC := by decide
  have := c8_mkfs_failure_keeps_magic zeroImg 1048576 4294967295 777 0 true h1
  exact ⟨h1, h2, this.1, (this.2 h2).1, (this.2 h2).2⟩


theorem readN_one {img : Img} {a : Nat} : readN img a 1 = byte img a := by
  simp [readN]

theorem imgBit_writeN_out {img : Img} {a n v base j : Nat}
    (h : base + j / 8 < a ∨ a + n ≤ base + j / 8) :
    imgBit (writeN img a n v) base j = imgBit img base j :=
  imgBit_writeF_out h

theorem cstr_step {img : Img} {a fuel : Nat} (h : byte img a ≠ 0) :
    cstr img a (fuel + 1) = byte img a :: cstr img (a + 1) fuel := by
  simp [cstr, h]

theorem cstr_stop {img : Img} {a fuel : Nat} (h : byte img a = 0) :
    cstr img a (fuel + 1) = [] := by
  simp [cstr, h]

theorem readN_mkfsSb_out {img : Img} {s N nb T a n : Nat} (h : 36 ≤ a) :
    readN (mkfsSb img s N nb T) a n = readN img a n := by
  simp only [mkfsSb]
  rw [readN_writeN_out (by omega), readN_writeN_out (by omega),
    readN_writeN_out (by omega), readN_writeN_out (by omega),
    readN_writeN_out (by omega), readN_writeN_out (by omega),
    readN_writeN_out (by omega)]

theorem readN_mkfsDir_out {img : Img} {B a n : Nat}
    (h : a + n ≤ B ∨ B + BLOCK_SIZE ≤ a) :
    readN (mkfsDir img B) a n = readN img a n := by
  have hbs : BLOCK_SIZE = 4096 := rfl
  have hds : DENTRY_SIZE = 64 := rfl
  have hnm : NAME_MAX = 59 := rfl
  simp only [mkfsDir]
  rw [show BLOCK_SIZE / DENTRY_SIZE - 2 = 62 from rfl]
  rw [readN_initSlots_out (by omega) (by omega), readN_writeF_out (by omega),
    readN_writeN_out (by omega), readN_writeF_out (by omega),
    readN_writeN_out (by omega)]

theorem readN_mkfsRootFields_out {img : Img} {ts tn a n : Nat}
    (h : a + n ≤ inoAddr ROOT_INO ∨ inoAddr ROOT_INO + 36 ≤ a) :
    readN (mkfsRootFields img ts tn) a n = readN img a n := by
  have hia : inoAddr ROOT_INO = 12288 := rfl
  simp only [mkfsRootFields, setMtime]
  rw [readN_writeN_out (by omega), readN_writeN_out (by omega),
    readN_writeN_out (by omega), readN_writeN_out (by omega),
    readN_writeN_out (by omega), readN_writeN_out (by omega)]

theorem readN_mkfsBitmaps_out {img : Img} {N nb T a n : Nat}
    (hT : 3 + T ≤ 32768) (h : imapBase + 2 * BLOCK_SIZE ≤ a) :
    readN (mkfsBitmaps img N nb T) a n = readN img a n := by
  have him : imapBase = 4096 := rfl
  have hdm : dmapBase = 8192 := rfl
  have hbs : BLOCK_SIZE = 4096 := rfl
  have hri : ROOT_INO = 0 := rfl
  have hd2 : DMAP_BLKNUM = 2 := rfl
  have hi1 : IMAP_BLKNUM = 1 := rfl
  have hs0 : SB_BLKNUM = 0 := rfl
  simp only [mkfsBitmaps]
  rw [readN_bitmapSet_out (by omega), readN_markItbl_out_right (by omega) (by omega),
    readN_bitmapSet_out (by omega), readN_bitmapSet_out (by omega),
    readN_bitmapSet_out (by omega), readN_writeF_out (by omega),
    readN_writeF_out (by omega)]


theorem imgBit_dmap_mkfsRootFields {img : Img} {ts tn j : Nat} (hj : j < 32768) :
    imgBit (mkfsRootFields img ts tn) dmapBase j = imgBit img dmapBase j := by
  have hdm : dmapBase = 8192 := rfl
  have hia : inoAddr ROOT_INO = 12288 := rfl
  simp only [mkfsRootFields, setMtime]
  rw [imgBit_writeN_out (by omega), imgBit_writeN_out (by omega),
    imgBit_writeN_out (by omega), imgBit_writeN_out (by omega),
    imgBit_writeN_out (by omega), imgBit_writeN_out (by omega)]

theorem imgBit_dmap_mkfsBitmaps {img : Img} {N nblks T j : Nat} (hj : j < 32768) :
    imgBit (mkfsBitmaps img N nblks T) dmapBase j
      = (decide (j < 3) || decide (3 ≤ j ∧ j < 3 + T) || decide (nblks ≤ j)) := by
  have him : imapBase = 4096 := rfl
  have hdm : dmapBase = 8192 := rfl
  have hbs : BLOCK_SIZE = 4096 := rfl
  have hri : ROOT_INO = 0 := rfl
  have hd2 : DMAP_BLKNUM = 2 := rfl
  have hi1 : IMAP_BLKNUM = 1 := rfl
  have hs0 : SB_BLKNUM = 0 := rfl
  simp only [mkfsBitmaps]
  rw [imgBit_bitmapSet_out (by omega), imgBit_markItbl,
    imgBit_bitmapSet_same, imgBit_bitmapSet_same, imgBit_bitmapSet_same]
  have : imgBit (writeF (writeF img imapBase BLOCK_SIZE fun o => bitmapInitByte N o)
      dmapBase BLOCK_SIZE fun o => bitmapInitByte nblks o) dmapBase j
      = decide (nblks ≤ j) := imgBit_initRegion hj
  rw [this, hs0, hi1, hd2]
  by_cases c1 : j < 3
  · have d1 : decide (j < 3) = true := decide_eq_true c1
    rcases Nat.lt_or_ge j 1 with hj0 | hj0
    · have : j = 0 := by omega
      subst this
      simp
    · rcases Nat.lt_or_ge j 2 with hj1 | hj1
      · have : j = 1 := by omega
        subst this
        simp
      · have : j = 2 := by omega
        subst this
        simp
  · have d1 : decide (j < 3) = false := decide_eq_false c1
    have e0 : decide (j = 0) = false := decide_eq_false (by omega)
    have e1 : decide (j = 1) = false := decide_eq_false (by omega)
    have e2 : decide (j = 2) = false := decide_eq_false (by omega)
    rw [d1, e0, e1, e2, Bool.false_or, Bool.false_or, Bool.false_or, Bool.false_or]


theorem wsub_small {a b : Nat} (hb : b ≤ a) (ha : a < 4294967296) :
    wsub a b = a - b := by
  unfold wsub
  omega

theorem mkfsSb_fields {img : Img} {s N nb T : Nat}
    (hs : s < 18446744073709551616) (hN : 1 ≤ N) (hN2 : N < 4294967296)
    (hnb : nb < 4294967296) (hT : T + 4 ≤ nb) :
    sbMagic (mkfsSb img s N nb T) = MAGIC ∧
    sbSize (mkfsSb img s N nb T) = s ∧
    sbNumInodes (mkfsSb img s N nb T) = N ∧
    sbFreeInodes (mkfsSb img s N nb T) = N - 1 ∧
    sbNumBlocks (mkfsSb img s N nb T) = nb ∧
    sbFreeBlocks (mkfsSb img s N nb T) = nb - 3 - T - 1 ∧
    sbDataRegion (mkfsSb img s N nb T) = 3 + T := by
  have hd2 : DMAP_BLKNUM = 2 := rfl
  have hi3 : ITBL_BLKNUM = 3 := rfl
  refine ⟨?_, ?_, ?_, ?_, ?_, ?_, ?_⟩
  · simp only [mkfsSb, sbMagic]
    rw [readN_writeN_out (by omega), readN_writeN_out (by omega),
      readN_writeN_out (by omega), readN_writeN_out (by omega),
      readN_writeN_out (by omega), readN_writeN_out (by omega)]
    exact readN_writeN_self (by decide)
  · simp only [mkfsSb, sbSize]
    rw [readN_writeN_out (by omega), readN_writeN_out (by omega),
      readN_writeN_out (by omega), readN_writeN_out (by omega),
      readN_writeN_out (by omega), readN_writeN]
    show s % 18446744073709551616 % 256 ^ 8 = s
    norm_num
    omega
  · simp only [mkfsSb, sbNumInodes]
    rw [readN_writeN_out (by omega), readN_writeN_out (by omega),
      readN_writeN_out (by omega), readN_writeN_out (by omega), readN_writeN]
    show N % 4294967296 % 256 ^ 4 = N
    norm_num
    omega
  · simp only [mkfsSb, sbFreeInodes]
    rw [readN_writeN_out (by omega), readN_writeN_out (by omega),
      readN_writeN_out (by omega), readN_writeN]
    show (N - 1) % 4294967296 % 256 ^ 4 = N - 1
    norm_num
    omega
  · simp only [mkfsSb, sbNumBlocks]
    rw [readN_writeN_out (by omega), readN_writeN_out (by omega), readN_writeN]
    show nb % 4294967296 % 256 ^ 4 = nb
    norm_num
    omega
  · simp only [mkfsSb, sbFreeBlocks]
    rw [readN_writeN_out (by omega), readN_writeN]
    rw [Nat.mod_eq_of_lt hnb]
    have w1 : wsub nb DMAP_BLKNUM = nb - 2 := by
      rw [hd2]
      exact wsub_small (by omega) (by omega)
    have w2 : wsub (nb - 2) T = nb - 2 - T := wsub_small (by omega) (by omega)
    have w3 : wsub (nb - 2 - T) 2 = nb - 2 - T - 2 := wsub_small (by omega) (by omega)
    rw [w1, w2, w3]
    show (nb - 2 - T - 2) % 256 ^ 4 = nb - 3 - T - 1
    norm_num
    omega
  · simp only [mkfsSb, sbDataRegion]
    rw [readN_writeN]
    rw [hi3]
    show (3 + T) % 4294967296 % 256 ^ 4 = 3 + T
    norm_num
    omega


theorem mkfsDir_bytes {img : Img} {B : Nat} :
    readN (mkfsDir img B) B 4 = 0 ∧
    byte (mkfsDir img B) (B + 4) = 46 ∧ byte (mkfsDir img B) (B + 5) = 0 ∧
    readN (mkfsDir img B) (B + 64) 4 = 0 ∧
    byte (mkfsDir img B) (B + 68) = 46 ∧ byte (mkfsDir img B) (B + 69) = 46 ∧
    byte (mkfsDir img B) (B + 70) = 0 ∧
    (∀ i, 2 ≤ i → i < 64 → readN (mkfsDir img B) (B + 64 * i) 4 = INO_MAX) := by
  have hds : DENTRY_SIZE = 64 := rfl
  have hnm : NAME_MAX = 59 := rfl
  have hri : ROOT_INO = 0 := rfl
  refine ⟨?_, ?_, ?_, ?_, ?_, ?_, ?_, ?_⟩
  · simp only [mkfsDir]
    rw [show BLOCK_SIZE / DENTRY_SIZE - 2 = 62 from rfl]
    rw [readN_initSlots_out (by omega) (by omega), readN_writeF_out (by omega),
      readN_writeN_out (by omega), readN_writeF_out (by omega)]
    rw [hri]
    exact readN_writeN_self (by decide)
  · rw [← readN_one]
    simp only [mkfsDir]
    rw [show BLOCK_SIZE / DENTRY_SIZE - 2 = 62 from rfl]
    rw [readN_initSlots_out (by omega) (by omega), readN_writeF_out (by omega),
      readN_writeN_out (by omega), readN_one]
    rw [byte_writeF_in (by omega) (by omega)]
    norm_num
  · rw [← readN_one]
    simp only [mkfsDir]
    rw [show BLOCK_SIZE / DENTRY_SIZE - 2 = 62 from rfl]
    rw [readN_initSlots_out (by omega) (by omega), readN_writeF_out (by omega),
      readN_writeN_out (by omega), readN_one]
    rw [byte_writeF_in (by omega) (by omega)]
    rw [show B + 5 - (B + 4) = 1 from by omega]
    decide
  · simp only [mkfsDir]
    rw [show BLOCK_SIZE / DENTRY_SIZE - 2 = 62 from rfl]
    rw [readN_initSlots_out (by omega) (by omega), readN_writeF_out (by omega)]
    rw [hds, hri]
    exact readN_writeN_self (by decide)
  · rw [← readN_one]
    simp only [mkfsDir]
    rw [show BLOCK_SIZE / DENTRY_SIZE - 2 = 62 from rfl]
    rw [readN_initSlots_out (by omega) (by omega), readN_one]
    rw [byte_writeF_in (by omega) (by omega)]
    rw [show B + 68 - (B + DENTRY_SIZE + 4) = 0 from by rw [hds]; omega]
    decide
  · rw [← readN_one]
    simp only [mkfsDir]
    rw [show BLOCK_SIZE / DENTRY_SIZE - 2 = 62 from rfl]
    rw [readN_initSlots_out (by omega) (by omega), readN_one]
    rw [byte_writeF_in (by omega) (by omega)]
    rw [show B + 69 - (B + DENTRY_SIZE + 4) = 1 from by rw [hds]; omega]
    decide
  · rw [← readN_one]
    simp only [mkfsDir]
    rw [show BLOCK_SIZE / DENTRY_SIZE - 2 = 62 from rfl]
    rw [readN_initSlots_out (by omega) (by omega), readN_one]
    rw [byte_writeF_in (by omega) (by omega)]
    rw [show B + 70 - (B + DENTRY_SIZE + 4) = 2 from by rw [hds]; omega]
    decide
  · intro i h2 h64
    simp only [mkfsDir]
    rw [show BLOCK_SIZE / DENTRY_SIZE - 2 = 62 from rfl]
    have : B + 64 * i = B + DENTRY_SIZE * (2 + (i - 2)) := by
      rw [hds]
      omega
    rw [this]
    exact readN_initSlots_at (by omega) (by omega)


/-- Claim C7: a successful format of an image of `nblks = size / BLOCK_SIZE`
blocks with `N` inodes (the hypotheses are exactly the formatter's
success conditions: at least one inode, `N` small enough for the 32-bit
table-size arithmetic, block count within `[BLK_MIN, BLK_MAX]`, and a
free block left for the root directory) produces: the superblock with
magic, the image size, `num_inodes = N`, `free_inodes = N - 1`,
`num_blocks = nblks`, `free_blocks = nblks - 3 - T - 1` and
`data_region = 3 + T` where `T = ⌈N / (BLOCK_SIZE / sizeof inode)⌉`;
a root inode with mode directory|0777, link count 2, size `BLOCK_SIZE`,
block count 1, and its directory block `3 + T` recorded in
`i_direct[0]`; and a root directory block holding `.` and `..` pointing
at `ROOT_INO` with every other entry's inode equal to `INO_MAX`. -/
theorem c7_mkfs_layout (img : Img) (size N ts tn : Nat)
    (hN1 : 1 ≤ N) (hN2 : N + 63 < 4294967296)
    (hmin : BLK_MIN ≤ size / BLOCK_SIZE) (hmax : size / BLOCK_SIZE ≤ BLK_MAX)
    (halloc : 3 + (N + 63) / 64 < size / BLOCK_SIZE) :
    (mkfs img size N true ts tn).1 = true ∧
    sbMagic (mkfs img size N true ts tn).2 = MAGIC ∧
    sbSize (mkfs img size N true ts tn).2 = size ∧
    sbNumInodes (mkfs img size N true ts tn).2 = N ∧
    sbFreeInodes (mkfs img size N true ts tn).2 = N - 1 ∧
    sbNumBlocks (mkfs img size N true ts tn).2 = size / BLOCK_SIZE ∧
    sbFreeBlocks (mkfs img size N true ts tn).2 = size / BLOCK_SIZE - 3 - (N + 63) / 64 - 1 ∧
    sbDataRegion (mkfs img size N true ts tn).2 = 3 + (N + 63) / 64 ∧
    iMode (mkfs img size N true ts tn).2 ROOT_INO = 16895 ∧
    iNlink (mkfs img size N true ts tn).2 ROOT_INO = 2 ∧
    iSize (mkfs img size N true ts tn).2 ROOT_INO = BLOCK_SIZE ∧
    iBlocks (mkfs img size N true ts tn).2 ROOT_INO = 1 ∧
    iDirect (mkfs img size N true ts tn).2 ROOT_INO 0 = 3 + (N + 63) / 64 ∧
    dentryIno (mkfs img size N true ts tn).2 0 = ROOT_INO ∧
    dentryName (mkfs img size N true ts tn).2 0 = [46] ∧
    dentryIno (mkfs img size N true ts tn).2 1 = ROOT_INO ∧
    dentryName (mkfs img size N true ts tn).2 1 = [46, 46] ∧
    (∀ i, 2 ≤ i → i < 64 → dentryIno (mkfs img size N true ts tn).2 i = INO_MAX) := by
  have hbs : BLOCK_SIZE = 4096 := rfl
  have hds : DENTRY_SIZE = 64 := rfl
  have hbmax : BLK_MAX = 32768 := rfl
  have hbmin : BLK_MIN = 4 := rfl
  have hia : inoAddr ROOT_INO = 12288 := rfl
  have hia0 : inoAddr 0 = 12288 := rfl
  have hri : ROOT_INO = 0 := rfl
  have hinm : INO_MAX = 4294967295 := rfl
  have hnd : NUM_DIRECT = 6 := rfl
  set nblks := size / BLOCK_SIZE with hnblks
  set T := (N + 63) / 64 with hTdef
  have hT1 : 1 ≤ T := by omega
  have hmax4 : size / 4096 ≤ 32768 := by
    rw [← hbs, ← hnblks, ← hbmax]
    exact hmax
  have hTb : T ≤ 32764 := by omega
  have hsz : size < 18446744073709551616 := by omega
  have hTcode : div_round_up N (BLOCK_SIZE / INODE_SIZE) = T := by
    show (N % 4294967296 + (4096 / 64 - 1)) % 4294967296 / (4096 / 64) = T
    rw [Nat.mod_eq_of_lt (show N < 4294967296 by omega)]
    rw [show (4096 / 64 - 1 : Nat) = 63 from rfl, show (4096 / 64 : Nat) = 64 from rfl]
    rw [Nat.mod_eq_of_lt (show N + 63 < 4294967296 by omega)]
  set img1 := mkfsBitmaps img N nblks T with himg1
  set img2 := mkfsRootFields img1 ts tn with himg2
  have hbit2 : ∀ j, j < 32768 → imgBit img2 dmapBase j =
      (decide (j < 3) || decide (3 ≤ j ∧ j < 3 + T) || decide (nblks ≤ j)) := by
    intro j hj
    rw [himg2, imgBit_dmap_mkfsRootFields hj, himg1, imgBit_dmap_mkfsBitmaps hj]
  have hAlloc : bitmapAlloc img2 dmapBase nblks
      = some (3 + T, bitmapSet img2 dmapBase (3 + T) true) := by
    apply bitmapAlloc_spec (by omega)
    · rw [hbit2 (3 + T) (by omega)]
      rw [decide_eq_false (show ¬(3 + T < 3) by omega),
        decide_eq_false (show ¬(3 ≤ 3 + T ∧ 3 + T < 3 + T) by omega),
        decide_eq_false (show ¬(nblks ≤ 3 + T) by omega)]
      rfl
    · intro j hj
      rw [hbit2 j (by omega)]
      by_cases c : j < 3
      · rw [decide_eq_true c, Bool.true_or, Bool.true_or]
      · rw [decide_eq_true (show 3 ≤ j ∧ j < 3 + T by omega),
          decide_eq_false c, Bool.false_or, Bool.true_or]
  set img3 := bitmapSet img2 dmapBase (3 + T) true with himg3
  set img4 := writeN img3 (inoAddr ROOT_INO + 36) 4 (3 + T) with himg4
  set imgD := mkfsDir img4 ((3 + T) * BLOCK_SIZE) with himgD
  set imgF := mkfsSb imgD size N nblks T with himgF
  have hmk : mkfs img size N true ts tn = (true, imgF) := by
    simp only [mkfs]
    rw [if_neg (show ¬ INO_MAX ≤ N by omega)]
    rw [if_neg (show ¬ (BLK_MAX < size / BLOCK_SIZE ∨ size / BLOCK_SIZE < BLK_MIN) by omega)]
    rw [hTcode, ← hnblks, ← himg1, ← himg2, hAlloc]
  have hsb := @mkfsSb_fields imgD size N nblks T
    hsz (by omega) (by omega) (by omega) (by omega)
  have hBge : 12352 ≤ (3 + T) * BLOCK_SIZE := by
    rw [hbs]
    omega
  have hBend : (3 + T) * BLOCK_SIZE + BLOCK_SIZE ≤ 18446744073709551616 := by
    rw [hbs]
    omega
  have hmode : iMode imgF ROOT_INO = 16895 := by
    rw [hri, himgF]
    unfold iMode
    rw [himgD, himg4, himg3]
    rw [readN_mkfsSb_out (by omega), readN_mkfsDir_out (by omega),
      readN_writeN_out (by rw [hia]; omega), readN_bitmapSet_out (by right; show dmapBase + (3 + T) / 8 + 1 ≤ inoAddr 0; show (8192 : Nat) + (3 + T) / 8 + 1 ≤ 12288; omega)]
    rw [himg2]
    simp only [mkfsRootFields, setMtime]
    rw [readN_writeN_out (by rw [hia]; omega), readN_writeN_out (by rw [hia]; omega),
      readN_writeN_out (by rw [hia]; omega)]
    rw [hia]
    exact readN_writeN_self (by norm_num)
  have hnlink : iNlink imgF ROOT_INO = 2 := by
    rw [hri, himgF]
    unfold iNlink
    rw [himgD, himg4, himg3]
    rw [readN_mkfsSb_out (by omega), readN_mkfsDir_out (by omega),
      readN_writeN_out (by rw [hia]; omega), readN_bitmapSet_out (by right; show dmapBase + (3 + T) / 8 + 1 ≤ inoAddr 0 + 4; show (8192 : Nat) + (3 + T) / 8 + 1 ≤ 12288 + 4; omega)]
    rw [himg2]
    simp only [mkfsRootFields, setMtime]
    rw [readN_writeN_out (by rw [hia]; omega), readN_writeN_out (by rw [hia]; omega)]
    rw [hia]
    exact readN_writeN_self (by norm_num)
  have hsize : iSize imgF ROOT_INO = BLOCK_SIZE := by
    rw [hri, himgF]
    unfold iSize
    rw [himgD, himg4, himg3]
    rw [readN_mkfsSb_out (by omega), readN_mkfsDir_out (by omega),
      readN_writeN_out (by rw [hia]; omega), readN_bitmapSet_out (by right; show dmapBase + (3 + T) / 8 + 1 ≤ inoAddr 0 + 8; show (8192 : Nat) + (3 + T) / 8 + 1 ≤ 12288 + 8; omega)]
    rw [himg2]
    simp only [mkfsRootFields, setMtime]
    rw [readN_writeN_out (by rw [hia]; omega)]
    rw [hia]
    exact readN_writeN_self (by decide)
  have hblocks : iBlocks imgF ROOT_INO = 1 := by
    rw [hri, himgF]
    unfold iBlocks
    rw [himgD, himg4, himg3]
    rw [readN_mkfsSb_out (by omega), readN_mkfsDir_out (by omega),
      readN_writeN_out (by rw [hia]; omega), readN_bitmapSet_out (by right; show dmapBase + (3 + T) / 8 + 1 ≤ inoAddr 0 + 16; show (8192 : Nat) + (3 + T) / 8 + 1 ≤ 12288 + 16; omega)]
    rw [himg2]
    simp only [mkfsRootFields, setMtime]
    rw [hia]
    exact readN_writeN_self (by norm_num)
  have hdirect : iDirect imgF ROOT_INO 0 = 3 + T := by
    rw [hri, himgF]
    unfold iDirect
    rw [himgD]
    rw [readN_mkfsSb_out (by omega), readN_mkfsDir_out (by omega)]
    rw [himg4]
    rw [show inoAddr 0 + 36 + 4 * 0 = inoAddr ROOT_INO + 36 from by rw [hia, hia0]]
    exact readN_writeN_self (by norm_num; omega)
  have haddr : ∀ i, i < 64 → dirEntryAddr imgF i = (3 + T) * BLOCK_SIZE + 64 * i := by
    intro i hi
    simp only [dirEntryAddr, getAddress]
    rw [show i * DENTRY_SIZE / BLOCK_SIZE = 0 from by
      rw [hds, hbs]; exact Nat.div_eq_of_lt (by omega)]
    rw [if_neg (by rw [hnd]; omega)]
    rw [hdirect]
    rw [show i * DENTRY_SIZE % BLOCK_SIZE = 64 * i from by
      rw [hds, hbs]; rw [Nat.mod_eq_of_lt (by omega)]; omega]
  have hino0 : dentryIno imgF 0 = 0 := by
    unfold dentryIno
    rw [haddr 0 (by omega)]
    rw [show (3 + T) * BLOCK_SIZE + 64 * 0 = (3 + T) * BLOCK_SIZE from by omega]
    rw [himgF, readN_mkfsSb_out (by omega)]
    rw [himgD]
    exact (@mkfsDir_bytes img4 ((3 + T) * BLOCK_SIZE)).1
  have hino1 : dentryIno imgF 1 = 0 := by
    unfold dentryIno
    rw [haddr 1 (by omega)]
    rw [show (3 + T) * BLOCK_SIZE + 64 * 1 = (3 + T) * BLOCK_SIZE + 64 from by omega]
    rw [himgF, readN_mkfsSb_out (by omega)]
    rw [himgD]
    exact (@mkfsDir_bytes img4 ((3 + T) * BLOCK_SIZE)).2.2.2.1
  have hname0 : dentryName imgF 0 = [46] := by
    unfold dentryName
    rw [haddr 0 (by omega)]
    have b1 : byte imgF ((3 + T) * BLOCK_SIZE + 64 * 0 + 4) = 46 := by
      rw [show (3 + T) * BLOCK_SIZE + 64 * 0 + 4 = (3 + T) * BLOCK_SIZE + 4 from by omega]
      rw [← readN_one, himgF, readN_mkfsSb_out (by omega), readN_one, himgD]
      exact (@mkfsDir_bytes img4 ((3 + T) * BLOCK_SIZE)).2.1
    have b2 : byte imgF ((3 + T) * BLOCK_SIZE + 64 * 0 + 4 + 1) = 0 := by
      rw [show (3 + T) * BLOCK_SIZE + 64 * 0 + 4 + 1 = (3 + T) * BLOCK_SIZE + 5 from by omega]
      rw [← readN_one, himgF, readN_mkfsSb_out (by omega), readN_one, himgD]
      exact (@mkfsDir_bytes img4 ((3 + T) * BLOCK_SIZE)).2.2.1
    have b1ne : byte imgF ((3 + T) * BLOCK_SIZE + 64 * 0 + 4) ≠ 0 := by
      rw [b1]
      omega
    show cstr imgF ((3 + T) * BLOCK_SIZE + 64 * 0 + 4) (4095 + 1) = [46]
    rw [cstr_step b1ne, b1]
    show (46 : Nat) :: cstr imgF ((3 + T) * BLOCK_SIZE + 64 * 0 + 4 + 1) (4094 + 1) = [46]
    rw [cstr_stop b2]
  have hname1 : dentryName imgF 1 = [46, 46] := by
    unfold dentryName
    rw [haddr 1 (by omega)]
    have b1 : byte imgF ((3 + T) * BLOCK_SIZE + 64 * 1 + 4) = 46 := by
      rw [show (3 + T) * BLOCK_SIZE + 64 * 1 + 4 = (3 + T) * BLOCK_SIZE + 68 from by omega]
      rw [← readN_one, himgF, readN_mkfsSb_out (by omega), readN_one, himgD]
      exact (@mkfsDir_bytes img4 ((3 + T) * BLOCK_SIZE)).2.2.2.2.1
    have b2 : byte imgF ((3 + T) * BLOCK_SIZE + 64 * 1 + 4 + 1) = 46 := by
      rw [show (3 + T) * BLOCK_SIZE + 64 * 1 + 4 + 1 = (3 + T) * BLOCK_SIZE + 69 from by omega]
      rw [← readN_one, himgF, readN_mkfsSb_out (by omega), readN_one, himgD]
      exact (@mkfsDir_bytes img4 ((3 + T) * BLOCK_SIZE)).2.2.2.2.2.1
    have b3 : byte imgF ((3 + T) * BLOCK_SIZE + 64 * 1 + 4 + 1 + 1) = 0 := by
      rw [show (3 + T) * BLOCK_SIZE + 64 * 1 + 4 + 1 + 1 = (3 + T) * BLOCK_SIZE + 70 from by omega]
      rw [← readN_one, himgF, readN_mkfsSb_out (by omega), readN_one, himgD]
      exact (@mkfsDir_bytes img4 ((3 + T) * BLOCK_SIZE)).2.2.2.2.2.2.1
    have b1ne : byte imgF ((3 + T) * BLOCK_SIZE + 64 * 1 + 4) ≠ 0 := by
      rw [b1]
      omega
    have b2ne : byte imgF ((3 + T) * BLOCK_SIZE + 64 * 1 + 4 + 1) ≠ 0 := by
      rw [b2]
      omega
    show cstr imgF ((3 + T) * BLOCK_SIZE + 64 * 1 + 4) (4095 + 1) = [46, 46]
    rw [cstr_step b1ne, b1]
    show (46 : Nat) :: cstr imgF ((3 + T) * BLOCK_SIZE + 64 * 1 + 4 + 1) (4094 + 1) = [46, 46]
    rw [cstr_step b2ne, b2]
    show (46 : Nat) :: 46 :: cstr imgF ((3 + T) * BLOCK_SIZE + 64 * 1 + 4 + 1 + 1) (4093 + 1)
      = [46, 46]
    rw [cstr_stop b3]
  have hslots : ∀ i, 2 ≤ i → i < 64 → dentryIno imgF i = INO_MAX := by
    intro i h2 h64
    unfold dentryIno
    rw [haddr i (by omega)]
    rw [himgF, readN_mkfsSb_out (by omega), himgD]
    exact (@mkfsDir_bytes img4 ((3 + T) * BLOCK_SIZE)).2.2.2.2.2.2.2 i h2 h64
  rw [hmk]
  exact ⟨rfl, hsb.1, hsb.2.1, hsb.2.2.1, hsb.2.2.2.1, hsb.2.2.2.2.1,
    hsb.2.2.2.2.2.1, hsb.2.2.2.2.2.2, hmode, hnlink, hsize, hblocks, hdirect,
    hino0, hname0, hino1, hname1, hslots⟩


/-- Claim C7 witness: formatting a zeroed 1 MiB image with 32 inodes
succeeds with `free_inodes = 31` and `free_blocks = 251` (scenario 1 of
spec §8). -/
theorem c7_mkfs_layout_witness :
    (1 ≤ 32 ∧ 32 + 63 < 4294967296 ∧ BLK_MIN ≤ 1048576 / BLOCK_SIZE ∧
      1048576 / BLOCK_SIZE ≤ BLK_MAX ∧ 3 + (32 + 63) / 64 < 1048576 / BLOCK_SIZE) ∧
    (mkfs zeroImg 1048576 32 true 777 0).1 = true ∧
    sbNumInodes (mkfs zeroImg 1048576 32 true 777 0).2 = 32 ∧
    sbFreeInodes (mkfs zeroImg 1048576 32 true 777 0).2 = 31 ∧
    sbNumBlocks (mkfs zeroImg 1048576 32 true 777 0).2 = 256 ∧
    sbFreeBlocks (mkfs zeroImg 1048576 32 true 777 0).2 = 251 := by
  have h := c7_mkfs_layout zeroImg 1048576 32 777 0 (by decide) (by decide)
    (by decide) (by decide) (by decide)
  exact ⟨⟨by decide, by decide, by decide, by decide, by decide⟩,
    h.1, h.2.2.2.1, h.2.2.2.2.1, h.2.2.2.2.2.1, h.2.2.2.2.2.2.1⟩


/-! ### Concrete claim theorems (C1-C6) -/

/-- Claim C1 (round-trip) fails on the code.  On a valid image holding
the 28-byte file `/a`, `write("/a", buf, 12340, 28)` succeeds and
returns 12340 — but the immediately following
`read("/a", out, 12340, 28)` returns 0, not 12340.  The write extends
the file via `vsfs_truncate`, whose zero-fill goes through the file's
direct pointers, which this engine never assigns: the `memset` lands at
flat byte 28 of the image and wipes the bitmaps, the root inode
(including its `i_direct[0]`) and part of the file's own inode; the
read can then no longer resolve `/a`, falls back to inode `INO_MAX`
(in C, an out-of-bounds inode-table access) and returns 0. -/
theorem c1_round_trip_fails :
    invariants cImgS28 = true ∧ iMode cImgS28 1 = 33188 ∧ iSize cImgS28 1 = 28 ∧
    (vsfs_write cImgS28 [47, 97] (fun _ => 0) 12340 28 2000 0).1 = 12340 ∧
    (vsfs_read (vsfs_write cImgS28 [47, 97] (fun _ => 0) 12340 28 2000 0).2
      [47, 97] 12340 28).1 = 0 := by
  refine ⟨by decide, by decide, by decide, by decide, by decide⟩

/-- Claim C2 (atomicity of create on a full directory) fails on the
code.  `cImg128` satisfies every structural invariant of §3, has 65
free inodes, and a completely used root directory.  `create("/zz")`
returns `-ENOSPC`, but the inode allocation is not rolled back: inode
bit 63, clear before the call, is left set, and `free_inodes` is left
decremented from 65 to 64 (`vsfs.c:339` returns without undoing
`vsfs.c:315-319`). -/
theorem c2_create_enospc_no_rollback :
    invariants cImg128 = true ∧
    imgBit cImg128 imapBase 63 = false ∧ sbFreeInodes cImg128 = 65 ∧
    (vsfs_create cImg128 [47, 122, 122] 33188 2000 0).1 = -28 ∧
    imgBit (vsfs_create cImg128 [47, 122, 122] 33188 2000 0).2 imapBase 63 = true ∧
    sbFreeInodes (vsfs_create cImg128 [47, 122, 122] 33188 2000 0).2 = 64 := by
  refine ⟨by decide, by decide, by decide, by decide, by decide, by decide⟩

/-- Claim C3 (truncate semantics) fails on the code.  On a valid 1 MiB
image with 251 free data blocks, `truncate("/a", 5000)` on the empty
file `/a` needs 2 blocks — far below the EFBIG limit of 1030 — so the
claim requires success with size 5000 and block count 2.  The code
instead zero-fills the range through the file's unassigned (zero)
direct pointer, wiping superblock bytes 0–4999 including `num_blocks`;
the subsequent `bitmap_alloc(dbmap, sb->num_blocks = 0)` fails, and
truncate returns `-ENOSPC`, leaving the superblock (magic included)
destroyed. -/
theorem c3_truncate_extension_broken :
    invariants cImgA = true ∧ iSize cImgA 1 = 0 ∧ sbFreeBlocks cImgA = 251 ∧
    div_round_up 5000 BLOCK_SIZE = 2 ∧
    (vsfs_truncate cImgA [47, 97] 5000 2000 0).1 = -28 ∧
    sbMagic (vsfs_truncate cImgA [47, 97] 5000 2000 0).2 = 0 := by
  refine ⟨by decide, by decide, by decide, by decide, by decide, by decide⟩

/-- Claim C4 (unlink) fails on the code in its "name cleared" part.
Unlinking `/a` (one link, no data blocks) does free the inode bit,
increment `free_inodes` and set the slot's inode to `INO_MAX`, but the
name is not cleared: `vsfs.c:384` runs
`memset(dir_entry, 0, strlen(dir_entry->name))`, which zeroes the first
`strlen("a") = 1` byte of the entry — the low byte of its inode field —
instead of the name, so the name byte `'a'` (97) survives in the
slot. -/
theorem c4_unlink_leaves_name :
    invariants cImgA = true ∧
    (vsfs_unlink cImgA [47, 97] 2000 0).1 = 0 ∧
    dentryIno (vsfs_unlink cImgA [47, 97] 2000 0).2 2 = INO_MAX ∧
    sbFreeInodes (vsfs_unlink cImgA [47, 97] 2000 0).2 = 31 ∧
    byte (vsfs_unlink cImgA [47, 97] 2000 0).2
      (dirEntryAddr (vsfs_unlink cImgA [47, 97] 2000 0).2 2 + 4) = 97 := by
  refine ⟨by decide, by decide, by decide, by decide, by decide⟩

/-- Claim C5 (zero-fill) fails on the code.  On a valid image holding
the 28-byte file `/a`, `truncate("/a", 12292)` succeeds (returns 0),
and the subsequent `read("/a", out, 12264, 28)` returns 12264 bytes —
but they are not all zero: the zero-fill and the read both go through
the file's unassigned (zero) direct pointer into the metadata blocks,
and between them the truncate's own allocation loop rewrites bytes in
that range, so `out` contains the wrapped `free_blocks` counter
(`out 0 = 253`) and a data-bitmap byte (`out 8164 = 7`). -/
theorem c5_zero_fill_fails :
    invariants cImgS28 = true ∧ iSize cImgS28 1 = 28 ∧
    (vsfs_truncate cImgS28 [47, 97] 12292 2000 0).1 = 0 ∧
    (vsfs_read (vsfs_truncate cImgS28 [47, 97] 12292 2000 0).2 [47, 97] 12264 28).1 = 12264 ∧
    (vsfs_read (vsfs_truncate cImgS28 [47, 97] 12292 2000 0).2 [47, 97] 12264 28).2 0 = 253 ∧
    (vsfs_read (vsfs_truncate cImgS28 [47, 97] 12292 2000 0).2 [47, 97] 12264 28).2 8164 = 7 := by
  refine ⟨by decide, by decide, by decide, by decide, by decide, by decide⟩

/-- Claim C6 (free-counter invariants) fails on the code.  Starting
from a valid image (the invariants, including both §8 counter
equalities, hold on `cImgS28`), the successful mutating operation
`truncate("/a", 12292)` leaves `free_blocks = 4294967293` — the
superblock word was zero-filled through the file's unassigned direct
pointer and then decremented three times with 32-bit wraparound — while
only 253 data-bitmap bits are clear over
`data_region .. num_blocks - 1`. -/
theorem c6_free_blocks_mismatch :
    invariants cImgS28 = true ∧
    (vsfs_truncate cImgS28 [47, 97] 12292 2000 0).1 = 0 ∧
    sbFreeBlocks (vsfs_truncate cImgS28 [47, 97] 12292 2000 0).2 = 4294967293 ∧
    countClear (vsfs_truncate cImgS28 [47, 97] 12292 2000 0).2 dmapBase
      (sbDataRegion (vsfs_truncate cImgS28 [47, 97] 12292 2000 0).2)
      (sbNumBlocks (vsfs_truncate cImgS28 [47, 97] 12292 2000 0).2) = 253 := by
  refine ⟨by decide, by decide, by decide, by decide⟩

end Vsfs
